import Mathlib

/-!
Shallow embedding of the CRM scheduler core (server.js / scheduler.js):
phone normalization, template rendering, the task lock, the message
dispatcher `enviarMensaje` and the scheduled entry point
`processSequences`, together with theorems about them.

JS strings are modelled as lists of characters (`JStr`); machine
timestamps (`Date.now()`) as integers; promises that resolve or reject
as `Except` values; the external collaborators (the libphonenumber
parse, the WhatsApp socket, the queue capability) as explicit
parameters.
-/

namespace CRM

/-- JS strings are modelled as lists of characters. -/
abbrev JStr := List Char

/-- Coerce a Lean string literal into the model's string type. -/
def jstr (s : String) : JStr := s.data

/-- The JS idiom `String(x).replace(/\D/g, '')`: keep only the ASCII
decimal digits of a string. -/
def stripNonDigits (s : JStr) : JStr := s.filter Char.isDigit

/-- Model of `parsePhoneNumberFromString(raw, 'MX')` followed by
`.isValid()` / `.number` from the external libphonenumber collaborator:
`some n` is the canonical `.number` when the parse is valid, `none`
otherwise. The core treats it as an opaque capability. -/
abbrev PhoneParse := JStr → Option JStr

/-- `toE164(num, defaultCountry = 'MX')` from server.js / scheduler.js
(the two copies are identical): strip non-digits, return empty on empty,
try the strict parse, then the MX fallbacks. -/
def toE164 (parseMX : PhoneParse) (num : JStr) : JStr :=
  let raw := stripNonDigits num
  if raw = [] then []
  else
    match parseMX raw with
    | some n => n
    | none =>
      if raw.length = 10 then jstr "+52" ++ raw
      else if 11 ≤ raw.length ∧ raw.length ≤ 15 ∧ (jstr "521").isPrefixOf raw then
        '+' :: raw
      else if 11 ≤ raw.length ∧ raw.length ≤ 15 ∧ (jstr "52").isPrefixOf raw then
        '+' :: raw
      else '+' :: raw

/-- `normalizePhoneForWA(phone)`: strip non-digits; a 12-digit number
starting `52` but not `521` gets the mobile indicator inserted; a
10-digit number gets `521` prepended; anything else is unchanged. -/
def normalizePhoneForWA (phone : JStr) : JStr :=
  let num := stripNonDigits phone
  if num.length = 12 ∧ (jstr "52").isPrefixOf num ∧ ¬ (jstr "521").isPrefixOf num then
    jstr "521" ++ num.drop 2
  else if num.length = 10 then jstr "521" ++ num
  else num

/-- `normalizePhoneForWA` as the specification words it: on a 12-digit
number with the bare country code, insert the mobile-indicator digit 1
after the country code (the first two digits); on a 10-digit number,
prepend the full mobile-indicator country prefix; otherwise return the
digit string unchanged. -/
def normalizePhoneForWA_specModel (phone : JStr) : JStr :=
  let num := stripNonDigits phone
  if num.length = 12 ∧ (jstr "52").isPrefixOf num ∧ ¬ (jstr "521").isPrefixOf num then
    num.take 2 ++ ['1'] ++ num.drop 2
  else if num.length = 10 then jstr "521" ++ num
  else num

/-- `e164ToJid(e164)` from scheduler.js: strip non-digits, normalize for
WhatsApp, append the channel domain suffix. -/
def e164ToJid (e164 : JStr) : JStr :=
  normalizePhoneForWA (stripNonDigits e164) ++ jstr "@s.whatsapp.net"

/-- A lead record: the attributes of the Firestore document, a finite
map from attribute names to string values. -/
abbrev Lead := List (String × String)

/-- JS property access `leadData?.[field] || ''`: a missing attribute
(and an empty one, which is falsy) reads as the empty string. -/
def getAttr (lead : Lead) (field : String) : JStr :=
  match lead.lookup field with
  | some v => v.data
  | none => []

/-- `firstName(n)` from scheduler.js:
`String(n).trim().split(/\s+/)[0] || ''`. JS `trim` removes whitespace
at both ends; the first token of the trimmed string is its leading run
of non-whitespace characters. -/
def jsTrim (s : JStr) : JStr :=
  ((s.dropWhile Char.isWhitespace).reverse.dropWhile Char.isWhitespace).reverse

/-- The first whitespace-delimited token of the trimmed input. -/
def firstName (n : JStr) : JStr :=
  (jsTrim n).takeWhile (fun c => !c.isWhitespace)

/-- The character class of the regex `\w`: ASCII letters, digits and
the underscore. -/
def isWordChar (c : Char) : Bool := c.isAlphanum || c = '_'

/-- The replacement value for one matched placeholder `field` of
`replacePlaceholders`: the lead's attribute, with the `nombre` field
special-cased to the first name only. -/
def placeholderValue (lead : Lead) (field : String) : JStr :=
  let value := getAttr lead field
  if field = "nombre" then firstName value else value

/-- The left-to-right scan of the global regex replace
`str.replace(/\x7b\x7b(\w+)\x7d\x7d/g, ...)` in `replacePlaceholders`:
at each position, a double open brace followed by a nonempty run of
word characters and a double close brace is a match and is substituted;
otherwise the scan advances one character. The fuel argument bounds the
number of scan steps; each step consumes at least one character, so
fuel equal to the input length always suffices. -/
def replacePlaceholdersAux (lead : Lead) : Nat → JStr → JStr
  | 0, s => s
  | _ + 1, [] => []
  | fuel + 1, '\x7b' :: '\x7b' :: rest =>
    let w := rest.takeWhile isWordChar
    let r := rest.dropWhile isWordChar
    if w ≠ [] ∧ r.take 2 = ['\x7d', '\x7d'] then
      placeholderValue lead (String.mk w) ++ replacePlaceholdersAux lead fuel (r.drop 2)
    else '\x7b' :: replacePlaceholdersAux lead fuel ('\x7b' :: rest)
  | fuel + 1, c :: cs => c :: replacePlaceholdersAux lead fuel cs

/-- `replacePlaceholders(template, leadData)` from scheduler.js. -/
def replacePlaceholders (lead : Lead) (template : JStr) : JStr :=
  replacePlaceholdersAux lead template.length template

/-- The characters `encodeURIComponent` leaves unescaped: ASCII
alphanumerics and `- _ . ! ~ * ' ( )`. -/
def uriUnreserved (c : Char) : Bool :=
  c.isAlphanum || (jstr "-_.!~*()").contains c || c = '\x27'

/-- The UTF-8 encoding of a code point, as a list of byte values. -/
def utf8Bytes (n : Nat) : List Nat :=
  if n < 128 then [n]
  else if n < 2048 then [192 + n / 64, 128 + n % 64]
  else if n < 65536 then [224 + n / 4096, 128 + n / 64 % 64, 128 + n % 64]
  else [240 + n / 262144, 128 + n / 4096 % 64, 128 + n / 64 % 64, 128 + n % 64]

/-- An uppercase hexadecimal digit. -/
def hexDigit (n : Nat) : Char :=
  if n < 10 then Char.ofNat (48 + n) else Char.ofNat (55 + n)

/-- A percent-escaped byte, `%XX`. -/
def percentEncodeByte (b : Nat) : JStr :=
  ['%', hexDigit (b / 16), hexDigit (b % 16)]

/-- `encodeURIComponent(s)`: unreserved characters pass through, every
other character is percent-escaped byte by byte in UTF-8. The output
never contains a dollar sign (it is escaped), so splicing it as a JS
string replacement introduces no replacement patterns. -/
def encodeURIComponent (s : JStr) : JStr :=
  (s.map (fun c =>
    if uriUnreserved c then [c]
    else ((utf8Bytes c.toNat).map percentEncodeByte).flatten)).flatten

/-- `s.replace(pat, repl)` with a string pattern: only the first
occurrence of `pat` is replaced. The replacements the form branch uses
(phone digits and an `encodeURIComponent` result) contain no dollar
sign, so JS replacement-pattern expansion does not arise and the
substitution is a plain splice. -/
def replaceFirst (pat repl : JStr) : JStr → JStr
  | [] => if pat = [] then repl else []
  | c :: cs =>
    if pat.isPrefixOf (c :: cs) then repl ++ (c :: cs).drop pat.length
    else c :: replaceFirst pat repl cs

/-- The global replace `.replace(/\r?\n/g, ' ')`: each newline, with an
optional preceding carriage return, becomes one space. -/
def collapseNewlines : JStr → JStr
  | [] => []
  | '\r' :: '\n' :: rest => '\x20' :: collapseNewlines rest
  | '\n' :: rest => '\x20' :: collapseNewlines rest
  | c :: cs => c :: collapseNewlines cs

/-- ASCII lowercasing, `String.prototype.toLowerCase` restricted to the
ASCII range the dispatch keys live in. -/
def jsLower (s : JStr) : JStr := s.map Char.toLower

/-- A message descriptor as `enviarMensaje` reads it: the `type` and
`contenido` properties, each possibly absent. -/
structure Mensaje where
  type : Option JStr
  contenido : Option JStr

/-- The dispatch key `(mensaje?.type || 'texto').toLowerCase()`: a
missing descriptor, a missing `type` and an empty `type` (falsy) all
default to `texto`; the key is lowercased. -/
def tipoOf (mensaje : Option Mensaje) : JStr :=
  jsLower (match mensaje with
    | some m =>
      match m.type with
      | some t => if t = [] then jstr "texto" else t
      | none => jstr "texto"
    | none => jstr "texto")

/-- The content `mensaje?.contenido || ''`. -/
def contenidoOf (mensaje : Option Mensaje) : JStr :=
  match mensaje with
  | some m =>
    match m.contenido with
    | some c => c
    | none => []
  | none => []

/-- The phone source `lead.telefono || lead.phone || lead.whatsapp`:
the first truthy (non-empty) of the three aliased attributes. -/
def leadPhoneRaw (lead : Lead) : JStr :=
  let t := getAttr lead "telefono"
  if t ≠ [] then t
  else
    let p := getAttr lead "phone"
    if p ≠ [] then p else getAttr lead "whatsapp"

/-- The text built by the `formulario` branch: substitute the first
occurrence of the phone placeholder with the digits of the E.164
number, the first occurrence of the name placeholder with the
URL-encoded name, collapse newlines to spaces and trim. -/
def formularioText (e164 : JStr) (lead : Lead) (contenido : JStr) : JStr :=
  jsTrim (collapseNewlines
    (replaceFirst (jstr "\x7b\x7bnombre\x7d\x7d")
      (encodeURIComponent (getAttr lead "nombre"))
      (replaceFirst (jstr "\x7b\x7btelefono\x7d\x7d")
        (stripNonDigits e164) contenido)))

/-- A payload handed to `sock.sendMessage`. -/
inductive Payload where
  /-- The payload `\x7b text, linkPreview: false \x7d`. -/
  | text (s : JStr)
  /-- The payload `\x7b audio: \x7b url \x7d, ptt: true \x7d`. -/
  | audio (url : JStr)
  /-- The payload `\x7b image: \x7b url \x7d \x7d`. -/
  | image (url : JStr)
  /-- The payload `\x7b video: \x7b url \x7d \x7d`. -/
  | video (url : JStr)
deriving DecidableEq

/-- One attempted `await sock.sendMessage(jid, payload)`: the attempt
is recorded, and `sendOk jid payload` tells whether the channel's
promise resolves or rejects. -/
def attemptSend (sendOk : JStr → Payload → Bool) (jid : JStr)
    (p : Payload) : Except Unit Unit × List (JStr × Payload) :=
  (if sendOk jid p then Except.ok () else Except.error (), [(jid, p)])

/-- The body of `enviarMensaje(lead, mensaje)` inside the `try`:
`hasSock` is the truthiness of `getWhatsAppSock()`; the result pairs
the body's outcome (it rejects exactly when an attempted channel send
rejects) with the list of attempted sends. -/
def enviarMensajeInner (hasSock : Bool) (sendOk : JStr → Payload → Bool)
    (parseMX : PhoneParse) (lead : Lead) (mensaje : Option Mensaje) :
    Except Unit Unit × List (JStr × Payload) :=
  if hasSock = false then (Except.ok (), [])
  else
    let e164 := toE164 parseMX (leadPhoneRaw lead)
    if e164 = [] then (Except.ok (), [])
    else
      let jid := e164ToJid e164
      let tipo := tipoOf mensaje
      let contenido := contenidoOf mensaje
      if tipo = jstr "texto" then
        let text := jsTrim (replacePlaceholders lead contenido)
        if text = [] then (Except.ok (), [])
        else attemptSend sendOk jid (Payload.text text)
      else if tipo = jstr "formulario" then
        let text := formularioText e164 lead contenido
        if text = [] then (Except.ok (), [])
        else attemptSend sendOk jid (Payload.text text)
      else if tipo = jstr "audio" then
        let audioUrl := jsTrim (replacePlaceholders lead contenido)
        if audioUrl = [] then (Except.ok (), [])
        else attemptSend sendOk jid (Payload.audio audioUrl)
      else if tipo = jstr "imagen" then
        let url := jsTrim (replacePlaceholders lead contenido)
        if url = [] then (Except.ok (), [])
        else attemptSend sendOk jid (Payload.image url)
      else if tipo = jstr "video" then
        let url := jsTrim (replacePlaceholders lead contenido)
        if url = [] then (Except.ok (), [])
        else attemptSend sendOk jid (Payload.video url)
      else (Except.ok (), [])

/-- The outer `catch` of `enviarMensaje`: a rejection is logged and the
function's own promise resolves. -/
def catchAll (r : Except Unit Unit) : Except Unit Unit :=
  match r with
  | Except.ok v => Except.ok v
  | Except.error _ => Except.ok ()

/-- `enviarMensaje(lead, mensaje)` from scheduler.js: the body wrapped
in the catch-and-log handler. -/
def enviarMensaje (hasSock : Bool) (sendOk : JStr → Payload → Bool)
    (parseMX : PhoneParse) (lead : Lead) (mensaje : Option Mensaje) :
    Except Unit Unit × List (JStr × Payload) :=
  let r := enviarMensajeInner hasSock sendOk parseMX lead mensaje
  (catchAll r.1, r.2)

/-- The rendered outbound content of one dispatcher invocation, by
message type; empty for an unrecognized type. -/
def renderedFor (parseMX : PhoneParse) (lead : Lead)
    (mensaje : Option Mensaje) : JStr :=
  let tipo := tipoOf mensaje
  let contenido := contenidoOf mensaje
  if tipo = jstr "texto" then jsTrim (replacePlaceholders lead contenido)
  else if tipo = jstr "formulario" then
    formularioText (toE164 parseMX (leadPhoneRaw lead)) lead contenido
  else if tipo = jstr "audio" then jsTrim (replacePlaceholders lead contenido)
  else if tipo = jstr "imagen" then jsTrim (replacePlaceholders lead contenido)
  else if tipo = jstr "video" then jsTrim (replacePlaceholders lead contenido)
  else []

/-- The payload one dispatcher invocation would send, by message type. -/
def payloadFor (parseMX : PhoneParse) (lead : Lead)
    (mensaje : Option Mensaje) : Payload :=
  let tipo := tipoOf mensaje
  let rendered := renderedFor parseMX lead mensaje
  if tipo = jstr "texto" then Payload.text rendered
  else if tipo = jstr "formulario" then Payload.text rendered
  else if tipo = jstr "audio" then Payload.audio rendered
  else if tipo = jstr "imagen" then Payload.image rendered
  else if tipo = jstr "video" then Payload.video rendered
  else Payload.text rendered

/-- The module-level `_taskLocks` map of scheduler.js: task name mapped
to the `Date.now()` timestamp of acquisition. -/
abbrev TaskLocks := List (String × Int)

/-- `_taskLocks.get(taskName)`. -/
def lockLookup (st : TaskLocks) (name : String) : Option Int :=
  st.lookup name

/-- `_taskLocks.set(taskName, now)`: a JS Map keeps one entry per key. -/
def lockSet (st : TaskLocks) (name : String) (t : Int) : TaskLocks :=
  (name, t) :: st.filter (fun p => p.1 != name)

/-- `_taskLocks.delete(taskName)`. -/
def lockDelete (st : TaskLocks) (name : String) : TaskLocks :=
  st.filter (fun p => p.1 != name)

/-- Whether an entry for `name` exists whose age at `now` is below
`timeoutMinutes` converted to milliseconds: the condition under which
`withTaskLock` skips the body. -/
def lockFresh (st : TaskLocks) (now : Int) (name : String)
    (timeoutMinutes : Nat) : Bool :=
  match lockLookup st name with
  | some existing => decide (now - existing < (timeoutMinutes : Int) * 60 * 1000)
  | none => false

/-- `withTaskLock(taskName, timeoutMinutes, fn)` from scheduler.js,
called at time `now` on lock map `st`. The async body `fn` is modelled
by its outcome: `.ok v` when its promise resolves with `v`, `.error e`
when it rejects. Returns the call's outcome together with the lock map
afterward: on a fresh existing entry the call skips the body and
resolves with 0; otherwise it records `now`, runs the body, and the
`finally` clause deletes the entry whether the body resolved or
rejected. -/
def withTaskLock {ε : Type} (st : TaskLocks) (now : Int) (taskName : String)
    (timeoutMinutes : Nat) (fn : Except ε Nat) : Except ε Nat × TaskLocks :=
  match lockLookup st taskName with
  | some existing =>
    if now - existing < (timeoutMinutes : Int) * 60 * 1000 then
      (Except.ok 0, st)
    else
      (fn, lockDelete (lockSet st taskName now) taskName)
  | none => (fn, lockDelete (lockSet st taskName now) taskName)

/-- `processSequences({batchSize = 200})` from scheduler.js. The queue
capability (the exported `Q.processDueSequenceJobs`, or else
`Q.processQueue`) is modelled as `queueFn`: `none` when queue.js
exports neither function, otherwise `some f` where `f batchSize` is the
outcome of `fn({ batchSize })` (`.ok n` resolves with a count, `.error e`
rejects). The body catches a rejection and resolves with 0. -/
def processSequences {ε : Type} (queueFn : Option (Nat → Except ε Nat))
    (batchSize : Nat) (st : TaskLocks) (now : Int) :
    Except ε Nat × TaskLocks :=
  withTaskLock st now "processSequences" 5
    (match queueFn with
     | none => Except.ok 0
     | some f =>
       match f batchSize with
       | Except.ok processed => Except.ok processed
       | Except.error _ => Except.ok 0)

lemma lockLookup_lockDelete (st : TaskLocks) (name : String) :
    lockLookup (lockDelete st name) name = none := by
  induction st with
  | nil => rfl
  | cons hd tl ih =>
    unfold lockDelete at *
    rw [List.filter]
    cases hh : (hd.1 != name) with
    | false => exact ih
    | true =>
      have hne : (name == hd.1) = false := by
        simp only [bne_iff_ne] at hh
        simp only [beq_eq_false_iff_ne]
        exact fun h => hh h.symm
      unfold lockLookup at *
      simp only [List.lookup, hne]
      exact ih

lemma lockDelete_lockSet (st : TaskLocks) (name : String) (t : Int) :
    lockDelete (lockSet st name t) name = lockDelete st name := by
  unfold lockDelete lockSet
  rw [List.filter]
  simp [List.filter_filter]

lemma lockLookup_lockDelete_ne (st : TaskLocks) (name : String) :
    lockFresh (lockDelete st name) 0 name 0 = false := by
  unfold lockFresh
  rw [lockLookup_lockDelete]

/-- Claim C3: a `withTaskLock` call made while a fresh entry for the
name exists returns 0 with the lock map untouched, whatever the body
is (so the body is not invoked); a call that does run the body yields
the body's own outcome — resolution or rejection alike — with the
entry removed afterward, so a subsequent call for the same name runs
its body again. -/
theorem withTaskLock_skip_and_release {ε : Type} :
    ∀ (st : TaskLocks) (now : Int) (name : String) (tm : Nat)
      (fn : Except ε Nat),
      (lockFresh st now name tm = true →
        withTaskLock st now name tm fn = (Except.ok 0, st)) ∧
      (lockFresh st now name tm = false →
        withTaskLock st now name tm fn = (fn, lockDelete st name) ∧
        lockLookup (withTaskLock st now name tm fn).2 name = none ∧
        ∀ (now2 : Int) (fn2 : Except ε Nat),
          withTaskLock (withTaskLock st now name tm fn).2 now2 name tm fn2
            = (fn2, lockDelete (lockDelete st name) name)) := by
  intro st now name tm fn
  constructor
  · intro hfresh
    unfold lockFresh at hfresh
    unfold withTaskLock
    cases hlk : lockLookup st name with
    | none => rw [hlk] at hfresh; exact absurd hfresh (by simp)
    | some t0 =>
      rw [hlk] at hfresh
      simp only [] at hfresh ⊢
      simp only [decide_eq_true_eq] at hfresh
      rw [if_pos hfresh]
  · intro hfresh
    have hrun : withTaskLock st now name tm fn = (fn, lockDelete st name) := by
      unfold lockFresh at hfresh
      unfold withTaskLock
      cases hlk : lockLookup st name with
      | none => simp only []; rw [lockDelete_lockSet]
      | some t0 =>
        rw [hlk] at hfresh
        simp only [] at hfresh ⊢
        simp only [decide_eq_false_iff_not] at hfresh
        rw [if_neg hfresh, lockDelete_lockSet]
    refine ⟨hrun, ?_, ?_⟩
    · rw [hrun]
      exact lockLookup_lockDelete st name
    · intro now2 fn2
      rw [hrun]
      unfold withTaskLock
      rw [lockLookup_lockDelete, lockDelete_lockSet]

/-- Claim C2: when the queue capability's call rejects, a
`processSequences` invocation that is not skipped by the task lock
still resolves, with the value 0. -/
theorem processSequences_queueThrow_resolvesZero {ε : Type}
    (st : TaskLocks) (now : Int) (batchSize : Nat)
    (f : Nat → Except ε Nat) (e : ε)
    (_hlock : lockFresh st now "processSequences" 5 = false)
    (hf : f batchSize = Except.error e) :
    (processSequences (some f) batchSize st now).1 = Except.ok 0 := by
  unfold processSequences
  dsimp only
  rw [hf]
  unfold withTaskLock
  cases hlk : lockLookup st "processSequences" with
  | none => rfl
  | some t0 =>
    dsimp only
    split <;> rfl

/-- Witness for claim C2 at a concrete input: an empty lock map, a
queue function that always rejects. -/
theorem processSequences_queueThrow_resolvesZero_witness :
    (processSequences
      (some (fun _ => (Except.error () : Except Unit Nat))) 200 [] 0).1
        = Except.ok 0 :=
  processSequences_queueThrow_resolvesZero [] 0 200
    (fun _ => Except.error ()) () (by rfl) (by rfl)

/-- Claim C5: `normalizePhoneForWA` agrees everywhere with the
specification's description (strip non-digits; insert the
mobile-indicator digit after the country code of a bare 12-digit
number; prepend the full mobile prefix to a 10-digit number; otherwise
unchanged), and both rewritten cases yield 13 digits. -/
theorem normalizePhoneForWA_matches_spec :
    ∀ s : JStr,
      normalizePhoneForWA s = normalizePhoneForWA_specModel s ∧
      ((stripNonDigits s).length = 12 →
        (jstr "52").isPrefixOf (stripNonDigits s) →
        ¬ (jstr "521").isPrefixOf (stripNonDigits s) →
        (normalizePhoneForWA s).length = 13) ∧
      ((stripNonDigits s).length = 10 →
        (normalizePhoneForWA s).length = 13) := by
  intro s
  refine ⟨?_, ?_, ?_⟩
  · simp only [normalizePhoneForWA, normalizePhoneForWA_specModel]
    split_ifs with h1
    · obtain ⟨hl, hp, hnp⟩ := h1
      obtain ⟨t, ht⟩ := List.isPrefixOf_iff_prefix.mp hp
      rw [← ht]
      have h52 : jstr "52" = ['5', '2'] := rfl
      rw [h52]
      rfl
    · rfl
    · rfl
  · intro hl hp hnp
    simp only [normalizePhoneForWA]
    rw [if_pos ⟨hl, hp, hnp⟩]
    have h3 : (jstr "521").length = 3 := rfl
    simp only [List.length_append, List.length_drop, hl, h3]
  · intro hl
    simp only [normalizePhoneForWA]
    split_ifs with h1
    · omega
    · have h3 : (jstr "521").length = 3 := rfl
      simp only [List.length_append, hl, h3]

/-- Claim C9: on an input that is already a 13-digit mobile-prefixed
digit string, `normalizePhoneForWA` returns it unchanged, so applying
it twice yields the same 13-digit result as applying it once. -/
theorem normalizePhoneForWA_idempotent :
    ∀ s : JStr, s.all Char.isDigit → s.length = 13 →
      (jstr "521").isPrefixOf s →
      normalizePhoneForWA (normalizePhoneForWA s) = normalizePhoneForWA s ∧
      normalizePhoneForWA s = s ∧ (normalizePhoneForWA s).length = 13 := by
  intro s hall hlen hpre
  have hstrip : stripNonDigits s = s :=
    List.filter_eq_self.mpr (List.all_eq_true.mp hall)
  have hfix : normalizePhoneForWA s = s := by
    simp [normalizePhoneForWA, hstrip, hlen]
  exact ⟨by rw [hfix]; exact hfix, hfix, by rw [hfix, hlen]⟩

/-- Witness for claim C9 at the concrete already-normalized number. -/
theorem normalizePhoneForWA_idempotent_witness :
    normalizePhoneForWA (normalizePhoneForWA (jstr "5215512345678"))
        = normalizePhoneForWA (jstr "5215512345678") ∧
      normalizePhoneForWA (jstr "5215512345678") = jstr "5215512345678" ∧
      (normalizePhoneForWA (jstr "5215512345678")).length = 13 :=
  normalizePhoneForWA_idempotent (jstr "5215512345678")
    (by decide) (by decide) (by decide)

/-- Claim C6: on an input of exactly 10 digits, `toE164` returns the
country code prefix followed by the input, whether the external parse
accepts the number (the spec's contract: a valid parse returns the
canonical international form) or rejects it (the 10-digit fallback). -/
theorem toE164_tenDigit :
    ∀ (parseMX : PhoneParse) (d : JStr),
      d.all Char.isDigit → d.length = 10 →
      (∀ r, r.length = 10 → r.all Char.isDigit →
        parseMX r = none ∨ parseMX r = some (jstr "+52" ++ r)) →
      toE164 parseMX d = jstr "+52" ++ d := by
  intro parseMX d hall hlen hp
  have hstrip : stripNonDigits d = d :=
    List.filter_eq_self.mpr (List.all_eq_true.mp hall)
  have hne : ¬ d = [] := by
    intro h
    rw [h] at hlen
    simp at hlen
  simp only [toE164, hstrip, if_neg hne]
  rcases hp d hlen hall with h | h <;> rw [h]
  simp [hlen]

/-- Witness for claim C6 at a concrete 10-digit number, with a parse
capability that rejects everything (exercising the fallback). -/
theorem toE164_tenDigit_witness :
    toE164 (fun _ => none) (jstr "5512345678")
      = jstr "+52" ++ jstr "5512345678" :=
  toE164_tenDigit (fun _ => none) (jstr "5512345678")
    (by decide) (by decide) (fun r _ _ => Or.inl rfl)

set_option maxHeartbeats 1000000 in
lemma enviarMensaje_sends_eq (hasSock : Bool) (sendOk : JStr → Payload → Bool)
    (parseMX : PhoneParse) (lead : Lead) (mensaje : Option Mensaje) :
    (enviarMensaje hasSock sendOk parseMX lead mensaje).2 =
      if hasSock = true ∧ toE164 parseMX (leadPhoneRaw lead) ≠ [] ∧
          renderedFor parseMX lead mensaje ≠ [] then
        [(e164ToJid (toE164 parseMX (leadPhoneRaw lead)),
          payloadFor parseMX lead mensaje)]
      else [] := by
  simp only [enviarMensaje, enviarMensajeInner, renderedFor, payloadFor,
    attemptSend, catchAll]
  cases hasSock with
  | false => simp
  | true => split_ifs <;> simp_all

/-- Claim C4: the dispatcher's promise always resolves — every internal
failure, including a rejected channel send, is caught and logged — and
the catch is not vacuous: there are inputs on which the body itself
rejects. -/
theorem enviarMensaje_never_rejects :
    (∀ (hasSock : Bool) (sendOk : JStr → Payload → Bool) (parseMX : PhoneParse)
        (lead : Lead) (mensaje : Option Mensaje),
      (enviarMensaje hasSock sendOk parseMX lead mensaje).1 = Except.ok ()) ∧
    (∃ (hasSock : Bool) (sendOk : JStr → Payload → Bool) (parseMX : PhoneParse)
        (lead : Lead) (mensaje : Option Mensaje),
      (enviarMensajeInner hasSock sendOk parseMX lead mensaje).1
        = Except.error ()) := by
  constructor
  · intro hasSock sendOk parseMX lead mensaje
    show catchAll (enviarMensajeInner hasSock sendOk parseMX lead mensaje).1
      = Except.ok ()
    cases h : (enviarMensajeInner hasSock sendOk parseMX lead mensaje).1 with
    | ok v => simp [catchAll]
    | error e => simp [catchAll]
  · refine ⟨true, fun _ _ => false, fun _ => none, [("telefono", "5512345678")],
      some ⟨some (jstr "texto"), some (jstr "hola")⟩, ?_⟩
    rfl

lemma renderedFor_eq_nil_of_unknown (parseMX : PhoneParse) (lead : Lead)
    (mensaje : Option Mensaje)
    (hm : tipoOf mensaje ∉ [jstr "texto", jstr "formulario", jstr "audio",
      jstr "imagen", jstr "video"]) :
    renderedFor parseMX lead mensaje = [] := by
  simp only [List.mem_cons, List.not_mem_nil, or_false, not_or] at hm
  obtain ⟨h1, h2, h3, h4, h5⟩ := hm
  simp only [renderedFor]
  rw [if_neg h1, if_neg h2, if_neg h3, if_neg h4, if_neg h5]

/-- Claim C8: one dispatcher invocation performs at most one outbound
send; none when the channel handle is missing, the normalized phone is
empty, the rendered content is empty, or the message type is
unrecognized; exactly one otherwise. -/
theorem enviarMensaje_at_most_one_send :
    ∀ (hasSock : Bool) (sendOk : JStr → Payload → Bool) (parseMX : PhoneParse)
      (lead : Lead) (mensaje : Option Mensaje),
      (enviarMensaje hasSock sendOk parseMX lead mensaje).2.length ≤ 1 ∧
      (hasSock = false →
        (enviarMensaje hasSock sendOk parseMX lead mensaje).2 = []) ∧
      (toE164 parseMX (leadPhoneRaw lead) = [] →
        (enviarMensaje hasSock sendOk parseMX lead mensaje).2 = []) ∧
      (renderedFor parseMX lead mensaje = [] →
        (enviarMensaje hasSock sendOk parseMX lead mensaje).2 = []) ∧
      (tipoOf mensaje ∉ [jstr "texto", jstr "formulario", jstr "audio",
          jstr "imagen", jstr "video"] →
        (enviarMensaje hasSock sendOk parseMX lead mensaje).2 = []) ∧
      (hasSock = true → toE164 parseMX (leadPhoneRaw lead) ≠ [] →
        renderedFor parseMX lead mensaje ≠ [] →
        (enviarMensaje hasSock sendOk parseMX lead mensaje).2.length = 1) := by
  intro hasSock sendOk parseMX lead mensaje
  rw [enviarMensaje_sends_eq]
  refine ⟨?_, ?_, ?_, ?_, ?_, ?_⟩
  · split_ifs <;> simp
  · intro h
    rw [if_neg]
    intro hc
    rw [h] at hc
    exact absurd hc.1 (by simp)
  · intro h
    rw [if_neg]
    intro hc
    exact hc.2.1 h
  · intro h
    rw [if_neg]
    intro hc
    exact hc.2.2 h
  · intro hm
    rw [if_neg]
    intro hc
    exact hc.2.2 (renderedFor_eq_nil_of_unknown parseMX lead mensaje hm)
  · intro hs he hr
    rw [if_pos ⟨hs, he, hr⟩]
    rfl

lemma char_toLower_toLower (c : Char) : c.toLower.toLower = c.toLower := by
  have key : ∀ n, n < 55296 → (Char.ofNat n).toNat = n := by
    intro n h
    have hv : n.isValidChar := Or.inl h
    rw [Char.ofNat, dif_pos hv]
    rfl
  simp only [Char.toLower]
  split_ifs with h1 h2
  · exfalso
    have hx : (Char.ofNat (c.toNat + 32)).toNat = c.toNat + 32 := key _ (by omega)
    omega
  · rfl
  · rfl

lemma jsLower_idem (s : JStr) : jsLower (jsLower s) = jsLower s := by
  induction s with
  | nil => rfl
  | cons c cs ih =>
    simp only [jsLower, List.map_cons] at ih ⊢
    rw [char_toLower_toLower]
    rw [ih]

lemma jsLower_eq_nil (s : JStr) : jsLower s = [] ↔ s = [] := by
  simp [jsLower]

lemma tipoOf_lower (ty : JStr) (co : Option JStr) :
    tipoOf (some ⟨some (jsLower ty), co⟩) = tipoOf (some ⟨some ty, co⟩) := by
  simp only [tipoOf]
  by_cases h : ty = []
  · subst h
    rfl
  · rw [if_neg h, if_neg (fun hh => h ((jsLower_eq_nil ty).mp hh))]
    exact jsLower_idem ty

lemma enviarMensaje_congr (hasSock : Bool) (sendOk : JStr → Payload → Bool)
    (parseMX : PhoneParse) (lead : Lead) (m1 m2 : Option Mensaje)
    (ht : tipoOf m1 = tipoOf m2) (hc : contenidoOf m1 = contenidoOf m2) :
    enviarMensaje hasSock sendOk parseMX lead m1
      = enviarMensaje hasSock sendOk parseMX lead m2 := by
  simp only [enviarMensaje, enviarMensajeInner, ht, hc]

/-- Claim C1, amended: the dispatcher selects the send behavior by the
lowercased descriptor type over the Spanish enum (texto, formulario,
audio, imagen, video), defaulting to texto when the type is missing —
so dispatch is case-insensitive and a missing type behaves exactly like
type texto; for type texto it renders the template against the lead,
trims, and performs a plain-text send if and only if the trimmed render
is non-empty. -/
theorem enviarMensaje_dispatch_amended :
    ∀ (hasSock : Bool) (sendOk : JStr → Payload → Bool) (parseMX : PhoneParse)
      (lead : Lead) (ty : JStr) (co : Option JStr),
      enviarMensaje hasSock sendOk parseMX lead (some ⟨some ty, co⟩)
        = enviarMensaje hasSock sendOk parseMX lead (some ⟨some (jsLower ty), co⟩) ∧
      enviarMensaje hasSock sendOk parseMX lead (some ⟨none, co⟩)
        = enviarMensaje hasSock sendOk parseMX lead
            (some ⟨some (jstr "texto"), co⟩) ∧
      (hasSock = true → toE164 parseMX (leadPhoneRaw lead) ≠ [] →
        (enviarMensaje hasSock sendOk parseMX lead
            (some ⟨some (jstr "texto"), co⟩)).2 =
          (if jsTrim (replacePlaceholders lead
              (contenidoOf (some ⟨some (jstr "texto"), co⟩))) = [] then []
           else [(e164ToJid (toE164 parseMX (leadPhoneRaw lead)),
             Payload.text (jsTrim (replacePlaceholders lead
               (contenidoOf (some ⟨some (jstr "texto"), co⟩)))))])) := by
  intro hasSock sendOk parseMX lead ty co
  refine ⟨?_, ?_, ?_⟩
  · exact (enviarMensaje_congr hasSock sendOk parseMX lead _ _
      (tipoOf_lower ty co) rfl).symm
  · exact enviarMensaje_congr hasSock sendOk parseMX lead _ _ rfl rfl
  · intro hs he
    have ht : tipoOf (some ⟨some (jstr "texto"), co⟩) = jstr "texto" := rfl
    have hrend : renderedFor parseMX lead (some ⟨some (jstr "texto"), co⟩)
        = jsTrim (replacePlaceholders lead
            (contenidoOf (some ⟨some (jstr "texto"), co⟩))) := by
      simp only [renderedFor]
      rw [if_pos ht]
    have hpay : payloadFor parseMX lead (some ⟨some (jstr "texto"), co⟩)
        = Payload.text (renderedFor parseMX lead
            (some ⟨some (jstr "texto"), co⟩)) := by
      simp only [payloadFor]
      rw [if_pos ht]
    rw [enviarMensaje_sends_eq]
    by_cases hr : jsTrim (replacePlaceholders lead
        (contenidoOf (some ⟨some (jstr "texto"), co⟩))) = []
    · rw [if_neg (fun hc => hc.2.2 (hrend.trans hr)), if_pos hr]
    · rw [if_pos ⟨hs, he, fun hh => hr (hrend.symm.trans hh)⟩, if_neg hr,
        hpay, hrend]

/-- Counterexample to claim C1 as stated: a descriptor whose type is
the English word for text, with content that renders non-empty, a live
channel and a valid phone — the code treats the type as unrecognized
and performs no send, while the claim requires a plain-text send. -/
theorem enviarMensaje_type_text_no_send :
    (enviarMensaje true (fun _ _ => true) (fun _ => none)
        [("telefono", "5512345678")]
        (some ⟨some (jstr "text"), some (jstr "hola")⟩)).2 = [] ∧
      jsTrim (replacePlaceholders [("telefono", "5512345678")] (jstr "hola"))
        = jstr "hola" := by
  exact ⟨rfl, rfl⟩

lemma takeWhile_dropWhile_append (p : Char → Bool) (w r : List Char)
    (hw : w.all p) (hr : ∀ c, r.head? = some c → p c = false) :
    (w ++ r).takeWhile p = w ∧ (w ++ r).dropWhile p = r := by
  induction w with
  | nil =>
    simp only [List.nil_append]
    cases r with
    | nil => simp
    | cons c cs =>
      have hc := hr c rfl
      simp [List.takeWhile_cons, List.dropWhile_cons, hc]
  | cons a as ih =>
    simp only [List.all_cons, Bool.and_eq_true] at hw
    obtain ⟨ha, has⟩ := hw
    obtain ⟨iht, ihd⟩ := ih has
    simp only [List.cons_append, List.takeWhile_cons, List.dropWhile_cons, ha]
    simp only [if_true, iht, ihd]
    constructor <;> first | rfl | trivial

lemma replacePlaceholdersAux_nil (lead : Lead) (fuel : Nat) :
    replacePlaceholdersAux lead fuel [] = [] := by
  cases fuel <;> rfl

lemma replacePlaceholdersAux_single (lead : Lead) (fuel : Nat)
    (w : List Char) (hne : w ≠ []) (hw : w.all isWordChar) :
    replacePlaceholdersAux lead (fuel + 1)
        ('\x7b' :: '\x7b' :: (w ++ ['\x7d', '\x7d']))
      = placeholderValue lead (String.mk w) := by
  obtain ⟨ht, hd⟩ := takeWhile_dropWhile_append isWordChar w ['\x7d', '\x7d']
    hw (by intro c hc; cases hc; rfl)
  simp only [replacePlaceholdersAux]
  rw [ht, hd]
  rw [if_pos ⟨hne, by rfl⟩]
  simp only [List.drop_succ_cons, List.drop_nil]
  rw [replacePlaceholdersAux_nil]
  exact List.append_nil _

lemma replacePlaceholders_single (lead : Lead) (w : List Char)
    (hne : w ≠ []) (hw : w.all isWordChar) :
    replacePlaceholders lead ('\x7b' :: '\x7b' :: (w ++ ['\x7d', '\x7d']))
      = placeholderValue lead (String.mk w) := by
  unfold replacePlaceholders
  have hl : ('\x7b' :: '\x7b' :: (w ++ ['\x7d', '\x7d'])).length
      = (w.length + 3) + 1 := by
    simp [List.length_append]
  rw [hl]
  exact replacePlaceholdersAux_single lead (w.length + 3) w hne hw

/-- Claim C7: the renderer substitutes a double-brace-wrapped
word-character identifier with the lead's attribute of that name; a
missing attribute resolves to the empty string; the `nombre` identifier
resolves to the first whitespace-delimited token of the trimmed value;
in particular the greeting template renders to the first name only and
an unknown placeholder renders to the empty string. -/
theorem replacePlaceholders_substitution :
    (∀ (lead : Lead) (w : List Char), w ≠ [] → w.all isWordChar →
      replacePlaceholders lead ('\x7b' :: '\x7b' :: (w ++ ['\x7d', '\x7d']))
        = placeholderValue lead (String.mk w)) ∧
    (∀ (lead : Lead) (w : List Char), lead.lookup (String.mk w) = none →
      placeholderValue lead (String.mk w) = []) ∧
    (∀ v : String, placeholderValue [("nombre", v)] "nombre"
      = firstName v.data) ∧
    replacePlaceholders [("nombre", "Juan Perez")]
        (jstr "Hola \x7b\x7bnombre\x7d\x7d") = jstr "Hola Juan" ∧
    replacePlaceholders [] (jstr "\x7b\x7bmissing\x7d\x7d") = [] := by
  refine ⟨?_, ?_, ?_, ?_, ?_⟩
  · exact replacePlaceholders_single
  · intro lead w h
    simp only [placeholderValue, getAttr, h]
    split_ifs <;> rfl
  · intro v
    rfl
  · rfl
  · rfl

/-- Claim C10: in the form branch only the first occurrence of each of
the two fixed placeholders is substituted — abstractly, the string
replace with a string pattern rewrites the first occurrence and leaves
the rest of the string (later occurrences included) verbatim — and on a
concrete two-occurrence template the sent text keeps the second
occurrence of each placeholder literally. -/
theorem formulario_first_occurrence_only :
    (∀ (pat repl tail : JStr), pat ≠ [] →
      replaceFirst pat repl (pat ++ tail) = repl ++ tail) ∧
    (enviarMensaje true (fun _ _ => true) (fun _ => none)
        [("telefono", "5512345678"), ("nombre", "Juan Perez")]
        (some ⟨some (jstr "formulario"),
          some (jstr "\x7b\x7btelefono\x7d\x7d y \x7b\x7btelefono\x7d\x7d \x7b\x7bnombre\x7d\x7d y \x7b\x7bnombre\x7d\x7d")⟩)).2
      = [(jstr "5215512345678@s.whatsapp.net",
          Payload.text
            (jstr "525512345678 y \x7b\x7btelefono\x7d\x7d Juan%20Perez y \x7b\x7bnombre\x7d\x7d"))] := by
  constructor
  · intro pat repl tail hne
    cases pat with
    | nil => exact absurd rfl hne
    | cons p ps =>
      simp only [List.cons_append, replaceFirst]
      rw [if_pos]
      · show repl ++ List.drop (p :: ps).length ((p :: ps) ++ tail)
          = repl ++ tail
        rw [List.drop_left]
      · exact List.isPrefixOf_iff_prefix.mpr ⟨tail, rfl⟩
  · rfl

end CRM
